import Mathlib

/-!
Verification of the AI-agent mailbox persistence engine
(`mailbox_router.py`): a shallow embedding of its data model and
operations, with theorems about message-ID assignment, the agent
registry, persistence behaviour, and error handling.
-/

set_option maxHeartbeats 1000000

/-! ### Decimal rendering of naturals

Python renders `f"msg{n}"` with `n` in decimal.  `decDigitsCore` computes
the little-endian decimal digits (with explicit fuel, so it reduces in the
kernel); `natToDec` renders most-significant-first, as Python does. -/

def decDigitsCore (fuel n : Nat) : List Nat :=
  match fuel with
  | 0 => []
  | fuel' + 1 => if n = 0 then [] else (n % 10) :: decDigitsCore fuel' (n / 10)

def decDigits (n : Nat) : List Nat := decDigitsCore n n

def decToNat : List Nat → Nat
  | [] => 0
  | d :: ds => d + 10 * decToNat ds

def digitChar (d : Nat) : Char := Char.ofNat (48 + d)

def natToDec (n : Nat) : String :=
  if n = 0 then "0" else String.mk ((decDigits n).reverse.map digitChar)

/-- Message-ID format from `send_message` (line 153): the literal "msg"
followed by the decimal rendering of the counter value, as in
`f"msg{...}"`. -/
def msgId (n : Nat) : String := "msg" ++ natToDec n

/-! ### Data model

`MessageRecord` mirrors the JSON object stored under a message ID
(lines 156-161 of `mailbox_router.py`); a `Mailbox` mirrors the per-agent
dict `{"max_key": <nat>, "messages": {...}}`.  Python dicts preserve
insertion order, so `messages` is an insertion-ordered association list
with unique keys. -/

structure MessageRecord where
  message : String
  sender : String
  recipient : String
  timestamp : String
deriving DecidableEq

structure Mailbox where
  max_key : Nat
  messages : List (String × MessageRecord)
deriving DecidableEq

/-- The fresh mailbox `{"max_key": 0, "messages": {}}` created by
`initialize_agent_mailbox`. -/
def freshMailbox : Mailbox := { max_key := 0, messages := [] }

/-! Python-dict operations on association lists: lookup, insert-or-update
(update keeps the key's position, a new key is appended at the end, as a
Python dict assignment does), and `del`. -/

def dictLookup {α : Type} : List (String × α) → String → Option α
  | [], _ => none
  | (k', v) :: rest, k => if k' = k then some v else dictLookup rest k

def dictInsert {α : Type} : List (String × α) → String → α → List (String × α)
  | [], k, v => [(k, v)]
  | (k', v') :: rest, k, v =>
      if k' = k then (k', v) :: rest else (k', v') :: dictInsert rest k v

def dictErase {α : Type} : List (String × α) → String → List (String × α)
  | [], _ => []
  | (k', v') :: rest, k => if k' = k then rest else (k', v') :: dictErase rest k

/-! ### System state

The durable and in-memory state touched by `mailbox_router.py`:
`agentsFile` is the content of `data/agents.json` (absent, undecodable,
or a JSON list of names); `mailboxFiles` maps each agent name to the
content of `data/mailboxes/<name>.json` (valid JSON mailbox, or an
unreadable/corrupt file); `registered_agents` is the in-memory set of
names; `agent_mailboxes` is the in-memory mailbox cache. -/

inductive FileContent where
  | valid : Mailbox → FileContent
  | corrupt : FileContent
deriving DecidableEq

inductive RegFileContent where
  | valid : List String → RegFileContent
  | corrupt : RegFileContent
deriving DecidableEq

structure SysState where
  agentsFile : Option RegFileContent
  mailboxFiles : List (String × FileContent)
  registered_agents : List String
  agent_mailboxes : List (String × Mailbox)
deriving DecidableEq

def emptySysState : SysState :=
  { agentsFile := none, mailboxFiles := [], registered_agents := [], agent_mailboxes := [] }

/-- A sample stored record, for concrete instantiations. -/
def sampleRecord : MessageRecord :=
  { message := "m", sender := "s", recipient := "a", timestamp := "t" }

/-- A sample state whose agent "a" is cached with counter 3 and one
stored message, for concrete instantiations. -/
def sampleState : SysState :=
  { agentsFile := none, mailboxFiles := [], registered_agents := [],
    agent_mailboxes := [("a", { max_key := 3, messages := [("msg2", sampleRecord)] })] }

/-- A sample state whose only durable artifact is a corrupt mailbox file
for "bob", for concrete instantiations. -/
def corruptState : SysState :=
  { agentsFile := none, mailboxFiles := [("bob", FileContent.corrupt)],
    registered_agents := [], agent_mailboxes := [] }

/-! ### Persistence helpers

Writes in the source catch `IOError` and merely print, so each write site
takes a boolean telling whether the write succeeds; on failure the
operation continues with the disk unchanged. -/

/-- Embedding of `_save_agent_names` (lines 50-57): dumps the in-memory
set to `agents.json`; an `IOError` is caught and only printed, so on
failure the function returns normally with the disk unchanged. -/
def save_agent_names (ok : Bool) (st : SysState) : SysState :=
  if ok then { st with agentsFile := some (RegFileContent.valid st.registered_agents) } else st

/-- Embedding of `_save_mailbox` (lines 97-104): dumps
`agent_mailboxes[agent_name]` to the agent's file; an `IOError` is caught
and only printed.  Every call site in the source runs it right after
inserting `agent_name` into `agent_mailboxes`, so the `KeyError` branch
(key absent) is unreachable and modelled as a no-op. -/
def save_mailbox (name : String) (ok : Bool) (st : SysState) : SysState :=
  match dictLookup st.agent_mailboxes name with
  | some mb =>
      if ok then { st with mailboxFiles := dictInsert st.mailboxFiles name (FileContent.valid mb) }
      else st
  | none => st

/-- Cache-miss handling of `initialize_agent_mailbox` (lines 111-129).
On a miss it loads the agent's file if present and readable; on a corrupt
or unreadable file, or no file at all, it installs a fresh mailbox and
saves it (`mOk` is that write's outcome).  Every branch ends with the
`mailbox_initialized_or_loaded` flag true. -/
def load_mailbox_step (name : String) (mOk : Bool) (st : SysState) : SysState :=
  if (dictLookup st.agent_mailboxes name).isSome then st
  else
    match dictLookup st.mailboxFiles name with
    | some (FileContent.valid mb) =>
        { st with agent_mailboxes := dictInsert st.agent_mailboxes name mb }
    | some FileContent.corrupt =>
        save_mailbox name mOk
          { st with agent_mailboxes := dictInsert st.agent_mailboxes name freshMailbox }
    | none =>
        save_mailbox name mOk
          { st with agent_mailboxes := dictInsert st.agent_mailboxes name freshMailbox }

/-- Registration tail of `initialize_agent_mailbox` (lines 131-133):
since the flag is true on every branch, the name is registered and the
registry persisted (`rOk`) whenever it was not registered before. -/
def register_step (name : String) (rOk : Bool) (st : SysState) : SysState :=
  if name ∈ st.registered_agents then st
  else save_agent_names rOk { st with registered_agents := name :: st.registered_agents }

/-- Embedding of `initialize_agent_mailbox` (lines 107-133): the
cache-miss load followed by the registration tail. -/
def initialize_agent_mailbox (name : String) (mOk rOk : Bool) (st : SysState) : SysState :=
  register_step name rOk (load_mailbox_step name mOk st)

/-! ### Service operations

Each endpoint returns the new state together with an `Except`-style
result; `ApiErr` mirrors the HTTP status codes raised through
`HTTPException` (404 not-found, 409 conflict, 500 server error). -/

inductive ApiErr where
  | notFound : ApiErr
  | conflict : ApiErr
  | server : ApiErr
deriving DecidableEq

deriving instance DecidableEq for Except

structure SendRequest where
  message : String
  sender : String
  recipient : String
deriving DecidableEq

/-- Embedding of `send_message` (lines 136-171).  The wall-clock
timestamp is supplied as a parameter.  `mOk`/`rOk` are the outcomes of
the writes inside `initialize_agent_mailbox`, `sOk` of the final
`_save_mailbox`.  The `KeyError` path (recipient missing from the cache
after initialization, caught by the generic handler as a 500) is
unreachable, since initialization always installs the recipient. -/
def send_message (req : SendRequest) (timestamp : String) (mOk rOk sOk : Bool)
    (st : SysState) : SysState × Except ApiErr String :=
  let st1 := initialize_agent_mailbox req.recipient mOk rOk st
  match dictLookup st1.agent_mailboxes req.recipient with
  | none => (st1, Except.error ApiErr.server)
  | some mb =>
      let newKey := mb.max_key + 1
      let mid := msgId newKey
      let record : MessageRecord :=
        { message := req.message, sender := req.sender, recipient := req.recipient,
          timestamp := timestamp }
      let mb2 : Mailbox := { max_key := newKey, messages := dictInsert mb.messages mid record }
      let st2 := { st1 with agent_mailboxes := dictInsert st1.agent_mailboxes req.recipient mb2 }
      (save_mailbox req.recipient sOk st2, Except.ok mid)

structure MessagesView where
  agent : String
  messages : List (String × MessageRecord)
  count : Nat
  status : String
deriving DecidableEq

/-- Embedding of `get_messages` (lines 173-203): initializes the
agent's mailbox, then returns its message dict with a count; an empty
dict yields count 0 and status "No messages found". -/
def get_messages (name : String) (mOk rOk : Bool) (st : SysState) :
    SysState × Except ApiErr MessagesView :=
  let st1 := initialize_agent_mailbox name mOk rOk st
  match dictLookup st1.agent_mailboxes name with
  | none => (st1, Except.error ApiErr.server)
  | some mb =>
      if mb.messages.isEmpty then
        (st1, Except.ok { agent := name, messages := [], count := 0,
                          status := "No messages found" })
      else
        (st1, Except.ok { agent := name, messages := mb.messages,
                          count := mb.messages.length,
                          status := "Messages retrieved successfully" })

/-- Embedding of `delete_message` (lines 205-232): initializes the
mailbox, 404s if the agent is somehow absent from the cache or the
message ID is not present, otherwise deletes the entry and saves. -/
def delete_message (name mid : String) (mOk rOk sOk : Bool) (st : SysState) :
    SysState × Except ApiErr String :=
  let st1 := initialize_agent_mailbox name mOk rOk st
  match dictLookup st1.agent_mailboxes name with
  | none => (st1, Except.error ApiErr.notFound)
  | some mb =>
      if (dictLookup mb.messages mid).isSome then
        let mb2 : Mailbox := { mb with messages := dictErase mb.messages mid }
        let st2 := { st1 with agent_mailboxes := dictInsert st1.agent_mailboxes name mb2 }
        (save_mailbox name sOk st2, Except.ok mid)
      else
        (st1, Except.error ApiErr.notFound)

/-- Embedding of `clear_mailbox` (lines 234-255): initializes the
mailbox, empties its message dict while leaving `max_key` untouched,
and saves. -/
def clear_mailbox (name : String) (mOk rOk sOk : Bool) (st : SysState) :
    SysState × Except ApiErr String :=
  let st1 := initialize_agent_mailbox name mOk rOk st
  match dictLookup st1.agent_mailboxes name with
  | none => (st1, Except.error ApiErr.notFound)
  | some mb =>
      let mb2 : Mailbox := { mb with messages := [] }
      let st2 := { st1 with agent_mailboxes := dictInsert st1.agent_mailboxes name mb2 }
      (save_mailbox name sOk st2, Except.ok name)

/-- Embedding of `add_agent` (lines 281-317): 409 if the name is in the
registry or a mailbox file exists on disk; otherwise it adds the name to
the registry, persists it (`rOk`), initializes the mailbox (`mOk`,
`rOk2`), then 500s if the mailbox file still does not exist.  The 500 is
an `HTTPException`, re-raised by the `except HTTPException` arm before
the rollback arm, so no registry rollback happens on that path. -/
def add_agent (name : String) (rOk mOk rOk2 : Bool) (st : SysState) :
    SysState × Except ApiErr String :=
  if name ∈ st.registered_agents ∨ (dictLookup st.mailboxFiles name).isSome then
    (st, Except.error ApiErr.conflict)
  else
    let st1 := save_agent_names rOk { st with registered_agents := name :: st.registered_agents }
    let st2 := initialize_agent_mailbox name mOk rOk2 st1
    if (dictLookup st2.mailboxFiles name).isSome then (st2, Except.ok name)
    else (st2, Except.error ApiErr.server)

/-! ### Startup loading (lines 33-48 and 64-81) -/

/-- Embedding of `_load_agent_names`: reads `agents.json` into the
in-memory set; an absent, unreadable, or non-list file leaves the set
unchanged (empty on the first run). -/
def load_agent_names (st : SysState) : SysState :=
  match st.agentsFile with
  | some (RegFileContent.valid l) => { st with registered_agents := l }
  | _ => st

/-- Embedding of `_load_all_mailboxes_from_disk`: clears the in-memory
cache and loads every readable `.json` mailbox file; unreadable or
corrupt files are skipped with a printed error. -/
def load_all_mailboxes_from_disk (st : SysState) : SysState :=
  { st with
    agent_mailboxes :=
      st.mailboxFiles.foldl
        (fun acc p =>
          match p.2 with
          | FileContent.valid mb => dictInsert acc p.1 mb
          | FileContent.corrupt => acc)
        [] }

/-- Module import time (lines 48 and 81): load the registry, then bulk
load all mailboxes from disk, starting from empty in-memory state. -/
def startup (regFile : Option RegFileContent) (files : List (String × FileContent)) : SysState :=
  load_all_mailboxes_from_disk
    (load_agent_names
      { agentsFile := regFile, mailboxFiles := files,
        registered_agents := [], agent_mailboxes := [] })

/-! ### Iterated sends

A sequence of `send_message` calls to one fixed recipient with all
durable writes succeeding, collecting the returned message IDs. -/

def sendSeq (req : SendRequest) (timestamp : String) : Nat → SysState → SysState × List String
  | 0, st => (st, [])
  | n + 1, st =>
      match send_message req timestamp true true true st with
      | (st1, Except.ok mid) =>
          let r := sendSeq req timestamp n st1
          (r.1, mid :: r.2)
      | (st1, Except.error _) => sendSeq req timestamp n st1

/-! ### In-memory mailbox mutations

The three in-memory mutations the endpoints perform on one mailbox:
the send mutation (lines 152-161), the delete mutation (line 224, applied
only when the ID is present), and the clear mutation (line 249). -/

inductive MOp where
  | send : MessageRecord → MOp
  | del : String → MOp
  | clear : MOp

def applyMOp (mb : Mailbox) : MOp → Mailbox
  | MOp.send r =>
      { max_key := mb.max_key + 1,
        messages := dictInsert mb.messages (msgId (mb.max_key + 1)) r }
  | MOp.del mid =>
      if (dictLookup mb.messages mid).isSome
      then { mb with messages := dictErase mb.messages mid } else mb
  | MOp.clear => { mb with messages := [] }

def runMOps (mb : Mailbox) : List MOp → Mailbox
  | [] => mb
  | op :: ops => runMOps (applyMOp mb op) ops

/-- The message IDs assigned by the send mutations along a run. -/
def assignedIds (mb : Mailbox) : List MOp → List String
  | [] => []
  | MOp.send r :: ops => msgId (mb.max_key + 1) :: assignedIds (applyMOp mb (MOp.send r)) ops
  | MOp.del mid :: ops => assignedIds (applyMOp mb (MOp.del mid)) ops
  | MOp.clear :: ops => assignedIds (applyMOp mb MOp.clear) ops

/-- Every stored key was assigned from the counter: it is `msgId j` for
some `1 ≤ j ≤ max_key`. -/
def keysBounded (mb : Mailbox) : Prop :=
  ∀ p ∈ mb.messages, ∃ j, 1 ≤ j ∧ j ≤ mb.max_key ∧ p.1 = msgId j

/-! ### File-system operation traces of the save functions

The write discipline of `_save_mailbox` (lines 97-104) and
`_save_agent_names` (lines 50-57): both run `open(filepath, "w")` on the
final target path — truncating it in place — and `json.dump` into that
handle.  No temporary file is created and no rename is performed. -/

inductive FsOp where
  | openTruncate : String → FsOp
  | jsonDumpTo : String → FsOp
  | renameFile : String → String → FsOp
deriving DecidableEq

def mailboxFilePath (name : String) : String := "data/mailboxes/" ++ name ++ ".json"

def agentsFilePath : String := "data/agents.json"

def save_mailbox_fsOps (name : String) : List FsOp :=
  [FsOp.openTruncate (mailboxFilePath name), FsOp.jsonDumpTo (mailboxFilePath name)]

def save_agent_names_fsOps : List FsOp :=
  [FsOp.openTruncate agentsFilePath, FsOp.jsonDumpTo agentsFilePath]

def FsOp.isRename : FsOp → Bool
  | FsOp.renameFile _ _ => true
  | _ => false

/-! ### Interleaving model of the unsynchronized counter update

Lines 152-153 of `send_message` perform, with no lock held,
`recipient_mailbox["max_key"] += 1` — a read of the counter followed by a
write of read-value-plus-one — and then derive the message ID from the
written value.  Two concurrent sends to the same recipient are modelled
as two threads, each taking a read step and then a write-and-assign-ID
step against the shared counter, in any interleaving. -/

structure RaceState where
  max_key : Nat
  localA : Option Nat
  localB : Option Nat
  idA : Option String
  idB : Option String
deriving DecidableEq

inductive RaceStep where
  | readA : RaceStep
  | readB : RaceStep
  | writeA : RaceStep
  | writeB : RaceStep

def raceStep (s : RaceState) : RaceStep → RaceState
  | RaceStep.readA => { s with localA := some s.max_key }
  | RaceStep.readB => { s with localB := some s.max_key }
  | RaceStep.writeA =>
      match s.localA with
      | some k => { s with max_key := k + 1, idA := some (msgId (k + 1)) }
      | none => s
  | RaceStep.writeB =>
      match s.localB with
      | some k => { s with max_key := k + 1, idB := some (msgId (k + 1)) }
      | none => s

def runRace (s : RaceState) : List RaceStep → RaceState
  | [] => s
  | stp :: rest => runRace (raceStep s stp) rest

/-- Two concurrent sends hitting a fresh mailbox. -/
def initRaceState : RaceState :=
  { max_key := 0, localA := none, localB := none, idA := none, idB := none }

/-! ### Helper lemmas: decimal rendering is injective -/

theorem decToNat_decDigitsCore : ∀ fuel n, n ≤ fuel → decToNat (decDigitsCore fuel n) = n := by
  intro fuel
  induction fuel with
  | zero =>
    intro n hn
    interval_cases n
    simp [decDigitsCore, decToNat]
  | succ f ih =>
    intro n hn
    by_cases h0 : n = 0
    · subst h0; simp [decDigitsCore, decToNat]
    · have hdiv : n / 10 ≤ f := by
        have : n / 10 < n := Nat.div_lt_self (Nat.pos_of_ne_zero h0) (by norm_num)
        omega
      simp [decDigitsCore, h0, decToNat, ih _ hdiv]
      omega

theorem decToNat_decDigits (n : Nat) : decToNat (decDigits n) = n :=
  decToNat_decDigitsCore n n le_rfl

theorem decDigits_inj {a b : Nat} (h : decDigits a = decDigits b) : a = b := by
  have := decToNat_decDigits a
  rw [h, decToNat_decDigits] at this
  omega

theorem decDigitsCore_lt : ∀ fuel n d, d ∈ decDigitsCore fuel n → d < 10 := by
  intro fuel
  induction fuel with
  | zero => intro n d hd; simp [decDigitsCore] at hd
  | succ f ih =>
    intro n d hd
    by_cases h0 : n = 0
    · simp [decDigitsCore, h0] at hd
    · simp [decDigitsCore, h0] at hd
      rcases hd with h | h
      · omega
      · exact ih _ _ h

theorem decDigits_lt {n d : Nat} (hd : d ∈ decDigits n) : d < 10 :=
  decDigitsCore_lt n n d hd

theorem digitChar_inj {a b : Nat} (ha : a < 10) (hb : b < 10)
    (h : digitChar a = digitChar b) : a = b := by
  interval_cases a <;> interval_cases b <;> simp_all [digitChar]

theorem map_digitChar_inj : ∀ l1 l2 : List Nat, (∀ d ∈ l1, d < 10) → (∀ d ∈ l2, d < 10) →
    l1.map digitChar = l2.map digitChar → l1 = l2 := by
  intro l1
  induction l1 with
  | nil => intro l2 _ _ h; cases l2 <;> simp_all
  | cons a l ih =>
    intro l2 h1 h2 h
    cases l2 with
    | nil => simp_all
    | cons b l' =>
      simp only [List.map_cons, List.cons.injEq] at h
      have hab : a = b :=
        digitChar_inj (h1 a (by simp)) (h2 b (by simp)) h.1
      have : l = l' := ih l' (fun d hd => h1 d (by simp [hd])) (fun d hd => h2 d (by simp [hd])) h.2
      simp [hab, this]

theorem natToDec_inj {a b : Nat} (h : natToDec a = natToDec b) : a = b := by
  by_cases ha : a = 0 <;> by_cases hb : b = 0
  · omega
  · exfalso
    unfold natToDec at h
    simp only [ha, if_pos rfl, hb, if_neg hb] at h
    have hdata : String.data "0" = (decDigits b).reverse.map digitChar := congrArg String.data h
    have h0 : [(0 : Nat)].map digitChar = (decDigits b).reverse.map digitChar := by
      simpa [digitChar] using hdata
    have : [(0 : Nat)] = (decDigits b).reverse :=
      map_digitChar_inj _ _ (by intro d hd; simp at hd; omega)
        (fun d hd => decDigits_lt (List.mem_reverse.mp hd)) h0
    have hrev : decDigits b = [0] := by
      have := congrArg List.reverse this
      simpa using this.symm
    have := decToNat_decDigits b
    rw [hrev] at this
    simp [decToNat] at this
    omega
  · exfalso
    unfold natToDec at h
    simp only [hb, if_pos rfl, ha, if_neg ha] at h
    have hdata : (decDigits a).reverse.map digitChar = String.data "0" := congrArg String.data h
    have h0 : (decDigits a).reverse.map digitChar = [(0 : Nat)].map digitChar := by
      simpa [digitChar] using hdata
    have : (decDigits a).reverse = [(0 : Nat)] :=
      map_digitChar_inj _ _ (fun d hd => decDigits_lt (List.mem_reverse.mp hd))
        (by intro d hd; simp at hd; omega) h0
    have hrev : decDigits a = [0] := by
      have := congrArg List.reverse this
      simpa using this
    have := decToNat_decDigits a
    rw [hrev] at this
    simp [decToNat] at this
    omega
  · unfold natToDec at h
    simp only [ha, hb, if_neg ha, if_neg hb] at h
    have hdata : (decDigits a).reverse.map digitChar = (decDigits b).reverse.map digitChar :=
      congrArg String.data h
    have hrev : (decDigits a).reverse = (decDigits b).reverse :=
      map_digitChar_inj _ _ (fun d hd => decDigits_lt (List.mem_reverse.mp hd))
        (fun d hd => decDigits_lt (List.mem_reverse.mp hd)) hdata
    exact decDigits_inj (List.reverse_injective hrev)

theorem msgId_inj {a b : Nat} (h : msgId a = msgId b) : a = b := by
  unfold msgId at h
  have hdata := congrArg String.data h
  simp only [String.data_append] at hdata
  have : String.data (natToDec a) = String.data (natToDec b) :=
    List.append_cancel_left hdata
  exact natToDec_inj (String.ext this)

/-! ### Helper lemmas: association lists -/

theorem dictLookup_insert_self {α : Type} (l : List (String × α)) (k : String) (v : α) :
    dictLookup (dictInsert l k v) k = some v := by
  induction l with
  | nil => simp [dictInsert, dictLookup]
  | cons p rest ih =>
    obtain ⟨k', v'⟩ := p
    by_cases h : k' = k <;> simp [dictInsert, dictLookup, h, ih]

theorem dictLookup_insert_ne {α : Type} (l : List (String × α)) (k k2 : String) (v : α)
    (h : k ≠ k2) : dictLookup (dictInsert l k v) k2 = dictLookup l k2 := by
  induction l with
  | nil => simp [dictInsert, dictLookup, h]
  | cons p rest ih =>
    obtain ⟨k', v'⟩ := p
    by_cases h2 : k' = k
    · subst h2; simp [dictInsert, dictLookup, h]
    · simp [dictInsert, dictLookup, h2, ih]

theorem mem_dictInsert {α : Type} (l : List (String × α)) (k : String) (v : α) :
    ∀ p ∈ dictInsert l k v, p = (k, v) ∨ p ∈ l := by
  induction l with
  | nil => simp [dictInsert]
  | cons q rest ih =>
    obtain ⟨k', v'⟩ := q
    intro p hp
    by_cases h : k' = k
    · subst h
      simp [dictInsert] at hp
      rcases hp with h1 | h1
      · left; simp [h1]
      · right; simp [h1]
    · simp [dictInsert, h] at hp
      rcases hp with h1 | h1
      · right; simp [h1]
      · rcases ih p h1 with h2 | h2
        · left; exact h2
        · right; simp [h2]

theorem mem_dictErase {α : Type} (l : List (String × α)) (k : String) :
    ∀ p ∈ dictErase l k, p ∈ l := by
  induction l with
  | nil => simp [dictErase]
  | cons q rest ih =>
    obtain ⟨k', v'⟩ := q
    intro p hp
    by_cases h : k' = k
    · simp [dictErase, h] at hp
      simp [hp]
    · simp [dictErase, h] at hp
      rcases hp with h1 | h1
      · simp [h1]
      · simp [ih p h1]

/-! ### Helper lemmas: persistence and initialization -/

theorem save_agent_names_mailboxFiles (ok : Bool) (st : SysState) :
    (save_agent_names ok st).mailboxFiles = st.mailboxFiles := by
  cases ok <;> simp [save_agent_names]

theorem save_agent_names_agent_mailboxes (ok : Bool) (st : SysState) :
    (save_agent_names ok st).agent_mailboxes = st.agent_mailboxes := by
  cases ok <;> simp [save_agent_names]

theorem save_agent_names_registered (ok : Bool) (st : SysState) :
    (save_agent_names ok st).registered_agents = st.registered_agents := by
  cases ok <;> simp [save_agent_names]

theorem save_mailbox_agent_mailboxes (name : String) (ok : Bool) (st : SysState) :
    (save_mailbox name ok st).agent_mailboxes = st.agent_mailboxes := by
  unfold save_mailbox
  cases dictLookup st.agent_mailboxes name <;> cases ok <;> simp

theorem save_mailbox_registered (name : String) (ok : Bool) (st : SysState) :
    (save_mailbox name ok st).registered_agents = st.registered_agents := by
  unfold save_mailbox
  cases dictLookup st.agent_mailboxes name <;> cases ok <;> simp

theorem save_mailbox_agentsFile (name : String) (ok : Bool) (st : SysState) :
    (save_mailbox name ok st).agentsFile = st.agentsFile := by
  unfold save_mailbox
  cases dictLookup st.agent_mailboxes name <;> cases ok <;> simp

theorem save_mailbox_disk_self (name : String) (st : SysState) (mb : Mailbox)
    (h : dictLookup st.agent_mailboxes name = some mb) :
    dictLookup (save_mailbox name true st).mailboxFiles name = some (FileContent.valid mb) := by
  unfold save_mailbox
  rw [h]
  simp [dictLookup_insert_self]

theorem register_step_agent_mailboxes (name : String) (rOk : Bool) (st : SysState) :
    (register_step name rOk st).agent_mailboxes = st.agent_mailboxes := by
  unfold register_step
  by_cases h : name ∈ st.registered_agents <;> simp [h, save_agent_names_agent_mailboxes]

theorem register_step_mailboxFiles (name : String) (rOk : Bool) (st : SysState) :
    (register_step name rOk st).mailboxFiles = st.mailboxFiles := by
  unfold register_step
  by_cases h : name ∈ st.registered_agents <;> simp [h, save_agent_names_mailboxFiles]

theorem register_step_mem_self (name : String) (rOk : Bool) (st : SysState) :
    name ∈ (register_step name rOk st).registered_agents := by
  unfold register_step
  by_cases h : name ∈ st.registered_agents <;> simp [h, save_agent_names_registered]

theorem register_step_agentsFile_of_not_mem (name : String) (st : SysState)
    (h : name ∉ st.registered_agents) :
    (register_step name true st).agentsFile
      = some (RegFileContent.valid (register_step name true st).registered_agents) := by
  unfold register_step
  simp [h, save_agent_names]

theorem load_step_registered (name : String) (mOk : Bool) (st : SysState) :
    (load_mailbox_step name mOk st).registered_agents = st.registered_agents := by
  unfold load_mailbox_step
  by_cases h : (dictLookup st.agent_mailboxes name).isSome
  · simp [h]
  · simp only [h]
    cases hd : dictLookup st.mailboxFiles name with
    | none => simp [save_mailbox_registered]
    | some c => cases c <;> simp [save_mailbox_registered]

theorem load_step_agentsFile (name : String) (mOk : Bool) (st : SysState) :
    (load_mailbox_step name mOk st).agentsFile = st.agentsFile := by
  unfold load_mailbox_step
  by_cases h : (dictLookup st.agent_mailboxes name).isSome
  · simp [h]
  · simp only [h]
    cases hd : dictLookup st.mailboxFiles name with
    | none => simp [save_mailbox_agentsFile]
    | some c => cases c <;> simp [save_mailbox_agentsFile]

theorem load_step_of_mem (name : String) (mOk : Bool) (st : SysState)
    (h : (dictLookup st.agent_mailboxes name).isSome) :
    load_mailbox_step name mOk st = st := by
  unfold load_mailbox_step
  simp [h]

theorem load_step_lookup_self (name : String) (mOk : Bool) (st : SysState) :
    ∃ mb, dictLookup (load_mailbox_step name mOk st).agent_mailboxes name = some mb := by
  unfold load_mailbox_step
  by_cases h : (dictLookup st.agent_mailboxes name).isSome
  · rcases hv : dictLookup st.agent_mailboxes name with _ | mb
    · rw [hv] at h; simp at h
    · exact ⟨mb, by simp [h, hv]⟩
  · simp only [h]
    cases hd : dictLookup st.mailboxFiles name with
    | none =>
      exact ⟨freshMailbox, by simp [save_mailbox_agent_mailboxes, dictLookup_insert_self]⟩
    | some c =>
      cases c with
      | valid mb => exact ⟨mb, by simp [dictLookup_insert_self]⟩
      | corrupt =>
        exact ⟨freshMailbox, by simp [save_mailbox_agent_mailboxes, dictLookup_insert_self]⟩

theorem load_step_fresh_or_corrupt (name : String) (st : SysState)
    (h1 : dictLookup st.agent_mailboxes name = none)
    (h2 : dictLookup st.mailboxFiles name = none ∨
          dictLookup st.mailboxFiles name = some FileContent.corrupt) :
    dictLookup (load_mailbox_step name true st).agent_mailboxes name = some freshMailbox ∧
    dictLookup (load_mailbox_step name true st).mailboxFiles name
      = some (FileContent.valid freshMailbox) := by
  unfold load_mailbox_step
  rcases h2 with h2 | h2 <;>
  · simp only [h1, h2, Option.isSome_none, Bool.false_eq_true, if_false]
    constructor
    · rw [save_mailbox_agent_mailboxes]
      exact dictLookup_insert_self _ _ _
    · exact save_mailbox_disk_self name _ freshMailbox (dictLookup_insert_self _ _ _)

theorem load_step_valid_file (name : String) (mOk : Bool) (st : SysState) (mb : Mailbox)
    (h1 : dictLookup st.agent_mailboxes name = none)
    (h2 : dictLookup st.mailboxFiles name = some (FileContent.valid mb)) :
    dictLookup (load_mailbox_step name mOk st).agent_mailboxes name = some mb ∧
    (load_mailbox_step name mOk st).mailboxFiles = st.mailboxFiles := by
  unfold load_mailbox_step
  simp [h1, h2, dictLookup_insert_self]

theorem init_agent_mailboxes_eq (name : String) (mOk rOk : Bool) (st : SysState) :
    (initialize_agent_mailbox name mOk rOk st).agent_mailboxes
      = (load_mailbox_step name mOk st).agent_mailboxes := by
  unfold initialize_agent_mailbox
  rw [register_step_agent_mailboxes]

theorem init_mailboxFiles_eq (name : String) (mOk rOk : Bool) (st : SysState) :
    (initialize_agent_mailbox name mOk rOk st).mailboxFiles
      = (load_mailbox_step name mOk st).mailboxFiles := by
  unfold initialize_agent_mailbox
  rw [register_step_mailboxFiles]

theorem init_lookup_self (name : String) (mOk rOk : Bool) (st : SysState) :
    ∃ mb, dictLookup (initialize_agent_mailbox name mOk rOk st).agent_mailboxes name = some mb := by
  rw [init_agent_mailboxes_eq]
  exact load_step_lookup_self name mOk st

theorem init_mem_registered (name : String) (mOk rOk : Bool) (st : SysState) :
    name ∈ (initialize_agent_mailbox name mOk rOk st).registered_agents :=
  register_step_mem_self name rOk (load_mailbox_step name mOk st)

theorem init_of_mem (name : String) (mOk rOk : Bool) (st : SysState)
    (h : (dictLookup st.agent_mailboxes name).isSome) :
    initialize_agent_mailbox name mOk rOk st = register_step name rOk st := by
  unfold initialize_agent_mailbox
  rw [load_step_of_mem name mOk st h]

theorem init_agentsFile_of_not_registered (name : String) (mOk : Bool) (st : SysState)
    (h : name ∉ st.registered_agents) :
    (initialize_agent_mailbox name mOk true st).agentsFile
      = some (RegFileContent.valid (initialize_agent_mailbox name mOk true st).registered_agents)
    := by
  unfold initialize_agent_mailbox
  exact register_step_agentsFile_of_not_mem name _ (by rw [load_step_registered]; exact h)

/-! ### Helper lemmas: sending -/

theorem send_message_eq (req : SendRequest) (ts : String) (mOk rOk sOk : Bool) (st : SysState)
    (mb : Mailbox)
    (h : dictLookup (initialize_agent_mailbox req.recipient mOk rOk st).agent_mailboxes
           req.recipient = some mb) :
    send_message req ts mOk rOk sOk st =
      (save_mailbox req.recipient sOk
        { initialize_agent_mailbox req.recipient mOk rOk st with
          agent_mailboxes :=
            dictInsert (initialize_agent_mailbox req.recipient mOk rOk st).agent_mailboxes
              req.recipient
              { max_key := mb.max_key + 1,
                messages := dictInsert mb.messages (msgId (mb.max_key + 1))
                  { message := req.message, sender := req.sender, recipient := req.recipient,
                    timestamp := ts } } },
       Except.ok (msgId (mb.max_key + 1))) := by
  simp only [send_message, h]

theorem send_message_result (req : SendRequest) (ts : String) (mOk rOk sOk : Bool)
    (st : SysState) (mb : Mailbox)
    (h : dictLookup (initialize_agent_mailbox req.recipient mOk rOk st).agent_mailboxes
           req.recipient = some mb) :
    (send_message req ts mOk rOk sOk st).2 = Except.ok (msgId (mb.max_key + 1)) ∧
    dictLookup (send_message req ts mOk rOk sOk st).1.agent_mailboxes req.recipient
      = some { max_key := mb.max_key + 1,
               messages := dictInsert mb.messages (msgId (mb.max_key + 1))
                 { message := req.message, sender := req.sender, recipient := req.recipient,
                   timestamp := ts } } ∧
    req.recipient ∈ (send_message req ts mOk rOk sOk st).1.registered_agents ∧
    dictLookup (send_message req ts mOk rOk true st).1.mailboxFiles req.recipient
      = some (FileContent.valid
          { max_key := mb.max_key + 1,
            messages := dictInsert mb.messages (msgId (mb.max_key + 1))
              { message := req.message, sender := req.sender, recipient := req.recipient,
                timestamp := ts } }) := by
  rw [send_message_eq req ts mOk rOk sOk st mb h, send_message_eq req ts mOk rOk true st mb h]
  refine ⟨rfl, ?_, ?_, ?_⟩
  · rw [save_mailbox_agent_mailboxes]
    exact dictLookup_insert_self _ _ _
  · rw [save_mailbox_registered]
    exact init_mem_registered _ _ _ _
  · exact save_mailbox_disk_self _ _ _ (dictLookup_insert_self _ _ _)

theorem init_lookup_of_mem (name : String) (mOk rOk : Bool) (st : SysState) (mb : Mailbox)
    (h : dictLookup st.agent_mailboxes name = some mb) :
    dictLookup (initialize_agent_mailbox name mOk rOk st).agent_mailboxes name = some mb := by
  rw [init_agent_mailboxes_eq, load_step_of_mem name mOk st (by rw [h]; rfl)]
  exact h

theorem init_lookup_fresh (name : String) (rOk : Bool) (st : SysState)
    (h1 : dictLookup st.agent_mailboxes name = none)
    (h2 : dictLookup st.mailboxFiles name = none ∨
          dictLookup st.mailboxFiles name = some FileContent.corrupt) :
    dictLookup (initialize_agent_mailbox name true rOk st).agent_mailboxes name
      = some freshMailbox := by
  rw [init_agent_mailboxes_eq]
  exact (load_step_fresh_or_corrupt name st h1 h2).1

/-- Running `sendSeq` from a state whose recipient mailbox is loaded with
counter `k` returns the IDs `msg(k+1), ..., msg(k+n)` in order. -/
theorem sendSeq_ids_loaded (req : SendRequest) (ts : String) : ∀ (n : Nat) (st : SysState)
    (mb : Mailbox), dictLookup st.agent_mailboxes req.recipient = some mb →
    (sendSeq req ts n st).2 = (List.range n).map (fun i => msgId (mb.max_key + i + 1)) := by
  intro n
  induction n with
  | zero => intro st mb _; simp [sendSeq]
  | succ n ih =>
    intro st mb h
    have hinit := init_lookup_of_mem req.recipient true true st mb h
    obtain ⟨h2, h3, _, _⟩ := send_message_result req ts true true true st mb hinit
    rcases hs : send_message req ts true true true st with ⟨st1, r⟩
    rw [hs] at h2 h3
    simp only at h2 h3
    subst h2
    unfold sendSeq
    rw [hs]
    simp only
    rw [ih st1 _ h3]
    rw [List.range_succ_eq_map, List.map_cons, List.map_map]
    congr 1
    apply List.map_congr_left
    intro i _
    simp only [Function.comp]
    congr 1
    omega

/-- C1: for every sequence of N successful sends to the same recipient,
starting from a fresh mailbox and with no interleaved deletes, the
returned message IDs are exactly msg1, ..., msgN in that order with no
gaps or repeats, and each ID is the literal "msg" followed by the decimal
value of the mailbox counter at assignment time. -/
theorem claim1_send_ids (req : SendRequest) (ts : String) (N : Nat) (st : SysState)
    (hmem : dictLookup st.agent_mailboxes req.recipient = none)
    (hdisk : dictLookup st.mailboxFiles req.recipient = none) :
    (sendSeq req ts N st).2 = (List.range N).map (fun i => "msg" ++ natToDec (i + 1)) ∧
    (sendSeq req ts N st).2.Nodup ∧
    (∀ (st2 : SysState) (mb2 : Mailbox),
      dictLookup st2.agent_mailboxes req.recipient = some mb2 →
      (send_message req ts true true true st2).2
        = Except.ok ("msg" ++ natToDec (mb2.max_key + 1))) := by
  have hmain : (sendSeq req ts N st).2 = (List.range N).map (fun i => msgId (i + 1)) := by
    cases N with
    | zero => simp [sendSeq]
    | succ n =>
      have hinit := init_lookup_fresh req.recipient true st hmem (Or.inl hdisk)
      obtain ⟨h2, h3, _, _⟩ := send_message_result req ts true true true st freshMailbox hinit
      rcases hs : send_message req ts true true true st with ⟨st1, r⟩
      rw [hs] at h2 h3
      simp only at h2 h3
      subst h2
      unfold sendSeq
      rw [hs]
      simp only
      rw [sendSeq_ids_loaded req ts n st1 _ h3]
      rw [List.range_succ_eq_map, List.map_cons, List.map_map]
      simp only [freshMailbox]
      congr 1
      apply List.map_congr_left
      intro i _
      simp only [Function.comp]
      congr 1
      omega
  refine ⟨hmain, ?_, ?_⟩
  · rw [hmain]
    refine List.Nodup.map ?_ (List.nodup_range N)
    intro a b hab
    have := msgId_inj hab
    omega
  · intro st2 mb2 h
    exact (send_message_result req ts true true true st2 mb2
      (init_lookup_of_mem req.recipient true true st2 mb2 h)).1

/-- Witness for C1 at a concrete input: three sends to "recipient1" from
the empty state return exactly msg1, msg2, msg3. -/
theorem claim1_send_ids_witness :
    dictLookup emptySysState.agent_mailboxes "recipient1" = none ∧
    dictLookup emptySysState.mailboxFiles "recipient1" = none ∧
    (sendSeq { message := "hello", sender := "sender1", recipient := "recipient1" }
        "2024-01-01 10:00:00" 3 emptySysState).2 = ["msg1", "msg2", "msg3"] := by
  refine ⟨by decide, by decide, ?_⟩
  have h := (claim1_send_ids
    { message := "hello", sender := "sender1", recipient := "recipient1" }
    "2024-01-01 10:00:00" 3 emptySysState (by decide) (by decide)).1
  rw [h]
  decide

/-! ### Helper lemmas: in-memory mailbox mutations -/

theorem applyMOp_maxKey_le (mb : Mailbox) (op : MOp) : mb.max_key ≤ (applyMOp mb op).max_key := by
  cases op with
  | send r => simp [applyMOp]
  | del mid => by_cases h : (dictLookup mb.messages mid).isSome <;> simp [applyMOp, h]
  | clear => simp [applyMOp]

theorem applyMOp_del_maxKey (mb : Mailbox) (mid : String) :
    (applyMOp mb (MOp.del mid)).max_key = mb.max_key := by
  by_cases h : (dictLookup mb.messages mid).isSome <;> simp [applyMOp, h]

theorem keysBounded_fresh : keysBounded freshMailbox := by
  intro p hp
  simp [freshMailbox] at hp

theorem keysBounded_apply (mb : Mailbox) (op : MOp) (h : keysBounded mb) :
    keysBounded (applyMOp mb op) := by
  cases op with
  | send r =>
    intro p hp
    simp only [applyMOp] at hp
    rcases mem_dictInsert _ _ _ p hp with h1 | h1
    · exact ⟨mb.max_key + 1, by omega, by simp [applyMOp], by simp [h1]⟩
    · obtain ⟨j, hj1, hj2, hj3⟩ := h p h1
      exact ⟨j, hj1, by simp only [applyMOp]; omega, hj3⟩
  | del mid =>
    intro p hp
    by_cases hm : (dictLookup mb.messages mid).isSome
    · simp only [applyMOp, hm, if_true] at hp ⊢
      exact h p (mem_dictErase _ _ p hp)
    · simp only [applyMOp, hm, if_false] at hp ⊢
      exact h p hp
  | clear =>
    intro p hp
    simp [applyMOp] at hp

theorem keysBounded_run : ∀ (ops : List MOp) (mb : Mailbox),
    keysBounded mb → keysBounded (runMOps mb ops) := by
  intro ops
  induction ops with
  | nil => intro mb h; exact h
  | cons op rest ih => intro mb h; exact ih _ (keysBounded_apply mb op h)

theorem assignedIds_gt : ∀ (ops : List MOp) (mb : Mailbox) (a : String),
    a ∈ assignedIds mb ops → ∃ m, mb.max_key < m ∧ a = msgId m := by
  intro ops
  induction ops with
  | nil => intro mb a ha; simp [assignedIds] at ha
  | cons op rest ih =>
    intro mb a ha
    cases op with
    | send r =>
      simp only [assignedIds, List.mem_cons] at ha
      rcases ha with ha | ha
      · exact ⟨mb.max_key + 1, by omega, ha⟩
      · obtain ⟨m, hm, ha2⟩ := ih _ a ha
        have := applyMOp_maxKey_le mb (MOp.send r)
        exact ⟨m, by omega, ha2⟩
    | del mid =>
      simp only [assignedIds] at ha
      obtain ⟨m, hm, ha2⟩ := ih _ a ha
      have := applyMOp_maxKey_le mb (MOp.del mid)
      exact ⟨m, by omega, ha2⟩
    | clear =>
      simp only [assignedIds] at ha
      obtain ⟨m, hm, ha2⟩ := ih _ a ha
      have := applyMOp_maxKey_le mb MOp.clear
      exact ⟨m, by omega, ha2⟩

theorem dictLookup_isSome_mem {α : Type} : ∀ (l : List (String × α)) (k : String),
    (dictLookup l k).isSome → ∃ v, (k, v) ∈ l := by
  intro l
  induction l with
  | nil => intro k h; simp [dictLookup] at h
  | cons p rest ih =>
    obtain ⟨k', v'⟩ := p
    intro k h
    by_cases hk : k' = k
    · subst hk; exact ⟨v', by simp⟩
    · simp only [dictLookup, hk, if_false] at h
      obtain ⟨v, hv⟩ := ih k h
      exact ⟨v, by simp [hv]⟩

theorem init_agent_mailboxes_of_mem (name : String) (mOk rOk : Bool) (st : SysState)
    (h : (dictLookup st.agent_mailboxes name).isSome) :
    (initialize_agent_mailbox name mOk rOk st).agent_mailboxes = st.agent_mailboxes := by
  rw [init_agent_mailboxes_eq, load_step_of_mem name mOk st h]

/-- C4: delete_message never alters the mailbox counter; clear_mailbox
empties the message map while preserving the counter; a send performed
after deletes or a clear continues the ID sequence from the pre-existing
counter; and a deleted message ID is never reassigned to a different
record by any later sequence of mailbox operations. -/
theorem claim4_counter_preserved :
    (∀ (name mid : String) (mOk rOk sOk : Bool) (st : SysState) (mb : Mailbox),
      dictLookup st.agent_mailboxes name = some mb →
      ∃ mb2, dictLookup (delete_message name mid mOk rOk sOk st).1.agent_mailboxes name
          = some mb2 ∧ mb2.max_key = mb.max_key) ∧
    (∀ (name : String) (mOk rOk sOk : Bool) (st : SysState) (mb : Mailbox),
      dictLookup st.agent_mailboxes name = some mb →
      ∃ mb2, dictLookup (clear_mailbox name mOk rOk sOk st).1.agent_mailboxes name
          = some mb2 ∧ mb2.max_key = mb.max_key ∧ mb2.messages = []) ∧
    (∀ (req : SendRequest) (ts : String) (mOk rOk sOk : Bool) (st : SysState) (mb : Mailbox),
      dictLookup st.agent_mailboxes req.recipient = some mb →
      (send_message req ts mOk rOk sOk st).2
        = Except.ok ("msg" ++ natToDec (mb.max_key + 1))) ∧
    (∀ (ops1 ops2 : List MOp) (mid : String),
      (dictLookup (runMOps freshMailbox ops1).messages mid).isSome →
      mid ∉ assignedIds (applyMOp (runMOps freshMailbox ops1) (MOp.del mid)) ops2) := by
  refine ⟨?_, ?_, ?_, ?_⟩
  · intro name mid mOk rOk sOk st mb h
    have hinit : dictLookup (initialize_agent_mailbox name mOk rOk st).agent_mailboxes name
        = some mb := init_lookup_of_mem name mOk rOk st mb h
    by_cases hmid : (dictLookup mb.messages mid).isSome
    · refine ⟨{ mb with messages := dictErase mb.messages mid }, ?_, rfl⟩
      simp only [delete_message, hinit, hmid, if_true]
      rw [save_mailbox_agent_mailboxes]
      exact dictLookup_insert_self _ _ _
    · refine ⟨mb, ?_, rfl⟩
      simp only [delete_message, hinit, hmid, if_false]
      exact hinit
  · intro name mOk rOk sOk st mb h
    have hinit : dictLookup (initialize_agent_mailbox name mOk rOk st).agent_mailboxes name
        = some mb := init_lookup_of_mem name mOk rOk st mb h
    refine ⟨{ mb with messages := [] }, ?_, rfl, rfl⟩
    simp only [clear_mailbox, hinit]
    rw [save_mailbox_agent_mailboxes]
    exact dictLookup_insert_self _ _ _
  · intro req ts mOk rOk sOk st mb h
    exact (send_message_result req ts mOk rOk sOk st mb
      (init_lookup_of_mem req.recipient mOk rOk st mb h)).1
  · intro ops1 ops2 mid hmem hin
    obtain ⟨r, hr⟩ := dictLookup_isSome_mem _ mid hmem
    obtain ⟨j, hj1, hj2, hj3⟩ := keysBounded_run ops1 freshMailbox keysBounded_fresh (mid, r) hr
    obtain ⟨m, hm, he⟩ := assignedIds_gt ops2 _ mid hin
    rw [applyMOp_del_maxKey] at hm
    have : j = m := msgId_inj (by rw [← hj3, ← he])
    omega

/-- Witness for C4 at concrete inputs: with agent "a" cached at counter 3,
delete and clear preserve the counter, the next send yields msg4, and a
deleted ID is not reassigned by later sends. -/
theorem claim4_counter_preserved_witness :
    (∃ mb2, dictLookup (delete_message "a" "msg2" true true true
          sampleState).1.agent_mailboxes "a" = some mb2 ∧ mb2.max_key = 3) ∧
    (∃ mb2, dictLookup (clear_mailbox "a" true true true
          sampleState).1.agent_mailboxes "a" = some mb2 ∧ mb2.max_key = 3 ∧
        mb2.messages = []) ∧
    (send_message { message := "m", sender := "s", recipient := "a" } "t" true true true
        sampleState).2 = Except.ok "msg4" ∧
    "msg1" ∉ assignedIds
        (applyMOp (runMOps freshMailbox [MOp.send sampleRecord]) (MOp.del "msg1"))
        [MOp.send sampleRecord, MOp.send sampleRecord] := by
  have hmb : dictLookup sampleState.agent_mailboxes "a"
      = some { max_key := 3, messages := [("msg2", sampleRecord)] } := by decide
  obtain ⟨hdel, hclr, hsend, hreuse⟩ := claim4_counter_preserved
  refine ⟨?_, ?_, ?_, ?_⟩
  · obtain ⟨mb2, h1, h2⟩ := hdel "a" "msg2" true true true sampleState _ hmb
    exact ⟨mb2, h1, h2⟩
  · obtain ⟨mb2, h1, h2, h3⟩ := hclr "a" true true true sampleState _ hmb
    exact ⟨mb2, h1, h2, h3⟩
  · have h := hsend { message := "m", sender := "s", recipient := "a" } "t" true true true
      sampleState _ hmb
    rw [h]
    decide
  · exact hreuse [MOp.send sampleRecord] [MOp.send sampleRecord, MOp.send sampleRecord]
      "msg1" (by decide)

/-- C3 (code-bug evidence): when the durable write of the recipient's
mailbox raises `IOError`, `_save_mailbox` swallows it, so `send_message`
still returns success with message ID msg1, the in-memory mailbox keeps
the appended message, and the on-disk file stays at the pre-send state:
no `PersistenceError` and no rollback, memory and disk diverge. -/
theorem claim3_send_swallows_save_failure :
    (send_message { message := "hello", sender := "sender1", recipient := "alice" }
        "2024-01-01 10:00:00" true true false emptySysState).2 = Except.ok "msg1" ∧
    dictLookup (send_message { message := "hello", sender := "sender1", recipient := "alice" }
        "2024-01-01 10:00:00" true true false emptySysState).1.agent_mailboxes "alice"
      = some ⟨1, [("msg1", ⟨"hello", "sender1", "alice", "2024-01-01 10:00:00"⟩)]⟩ ∧
    dictLookup (send_message { message := "hello", sender := "sender1", recipient := "alice" }
        "2024-01-01 10:00:00" true true false emptySysState).1.mailboxFiles "alice"
      = some (FileContent.valid freshMailbox) ∧
    (⟨1, [("msg1", ⟨"hello", "sender1", "alice", "2024-01-01 10:00:00"⟩)]⟩ : Mailbox)
      ≠ freshMailbox := by
  decide

/-- C10: when an agent's mailbox file is unreadable or corrupt,
`initialize_agent_mailbox` installs a fresh empty mailbox in memory and
immediately writes it back, overwriting the corrupt file on disk. -/
theorem claim10_corrupt_file_reset (name : String) (rOk : Bool) (st : SysState)
    (hmem : dictLookup st.agent_mailboxes name = none)
    (hdisk : dictLookup st.mailboxFiles name = some FileContent.corrupt) :
    dictLookup (initialize_agent_mailbox name true rOk st).agent_mailboxes name
      = some freshMailbox ∧
    dictLookup (initialize_agent_mailbox name true rOk st).mailboxFiles name
      = some (FileContent.valid freshMailbox) := by
  constructor
  · rw [init_agent_mailboxes_eq]
    exact (load_step_fresh_or_corrupt name st hmem (Or.inr hdisk)).1
  · rw [init_mailboxFiles_eq]
    exact (load_step_fresh_or_corrupt name st hmem (Or.inr hdisk)).2

/-- Witness for C10 at a concrete input: initializing "bob" over a
corrupt file yields a fresh in-memory mailbox and a fresh file. -/
theorem claim10_corrupt_file_reset_witness :
    dictLookup (initialize_agent_mailbox "bob" true true corruptState).agent_mailboxes "bob"
      = some freshMailbox ∧
    dictLookup (initialize_agent_mailbox "bob" true true corruptState).mailboxFiles "bob"
      = some (FileContent.valid freshMailbox) :=
  claim10_corrupt_file_reset "bob" true corruptState (by decide) (by decide)

theorem load_step_fresh_mem (name : String) (mOk : Bool) (st : SysState)
    (h1 : dictLookup st.agent_mailboxes name = none)
    (h2 : dictLookup st.mailboxFiles name = none ∨
          dictLookup st.mailboxFiles name = some FileContent.corrupt) :
    dictLookup (load_mailbox_step name mOk st).agent_mailboxes name = some freshMailbox := by
  unfold load_mailbox_step
  rcases h2 with h2 | h2 <;>
  · simp only [h1, h2, Option.isSome_none, Bool.false_eq_true, if_false]
    rw [save_mailbox_agent_mailboxes]
    exact dictLookup_insert_self _ _ _

theorem init_lookup_fresh_mem (name : String) (mOk rOk : Bool) (st : SysState)
    (h1 : dictLookup st.agent_mailboxes name = none)
    (h2 : dictLookup st.mailboxFiles name = none ∨
          dictLookup st.mailboxFiles name = some FileContent.corrupt) :
    dictLookup (initialize_agent_mailbox name mOk rOk st).agent_mailboxes name
      = some freshMailbox := by
  rw [init_agent_mailboxes_eq]
  exact load_step_fresh_mem name mOk st h1 h2

/-- C8: listing messages never fails: for every state and agent name the
result is a success value; for an empty or never-seen mailbox it reports
zero messages; and a load or decode failure during the implicit load
degrades to an empty mailbox instead of failing the request. -/
theorem claim8_list_never_fails (name : String) (mOk rOk : Bool) (st : SysState) :
    (∃ v, (get_messages name mOk rOk st).2 = Except.ok v) ∧
    (dictLookup st.agent_mailboxes name = none → dictLookup st.mailboxFiles name = none →
      (get_messages name mOk rOk st).2
        = Except.ok { agent := name, messages := [], count := 0,
                      status := "No messages found" }) ∧
    (∀ mb, dictLookup st.agent_mailboxes name = some mb → mb.messages = [] →
      (get_messages name mOk rOk st).2
        = Except.ok { agent := name, messages := [], count := 0,
                      status := "No messages found" }) ∧
    (dictLookup st.agent_mailboxes name = none →
      dictLookup st.mailboxFiles name = some FileContent.corrupt →
      (get_messages name mOk rOk st).2
        = Except.ok { agent := name, messages := [], count := 0,
                      status := "No messages found" }) := by
  refine ⟨?_, ?_, ?_, ?_⟩
  · obtain ⟨mb, hmb⟩ := init_lookup_self name mOk rOk st
    by_cases he : mb.messages.isEmpty
    · refine ⟨⟨name, [], 0, "No messages found"⟩, ?_⟩
      simp [get_messages, hmb, he]
    · refine ⟨⟨name, mb.messages, mb.messages.length, "Messages retrieved successfully"⟩, ?_⟩
      simp [get_messages, hmb, he]
  · intro h1 h2
    have hf := init_lookup_fresh_mem name mOk rOk st h1 (Or.inl h2)
    simp [get_messages, hf, freshMailbox]
  · intro mb hmb hempty
    have hinit := init_lookup_of_mem name mOk rOk st mb hmb
    simp [get_messages, hinit, hempty]
  · intro h1 h2
    have hf := init_lookup_fresh_mem name mOk rOk st h1 (Or.inr h2)
    simp [get_messages, hf, freshMailbox]

/-- Witness for C8 at concrete inputs: a never-seen agent on the empty
state and an agent whose only file is corrupt both list zero messages. -/
theorem claim8_list_never_fails_witness :
    (get_messages "ghost" true true emptySysState).2
      = Except.ok { agent := "ghost", messages := [], count := 0,
                    status := "No messages found" } ∧
    (get_messages "bob" true true corruptState).2
      = Except.ok { agent := "bob", messages := [], count := 0,
                    status := "No messages found" } := by
  constructor
  · exact (claim8_list_never_fails "ghost" true true emptySysState).2.1
      (by decide) (by decide)
  · exact (claim8_list_never_fails "bob" true true corruptState).2.2.2
      (by decide) (by decide)

theorem get_messages_state (name : String) (mOk rOk : Bool) (st : SysState) :
    (get_messages name mOk rOk st).1 = initialize_agent_mailbox name mOk rOk st := by
  obtain ⟨mb, hmb⟩ := init_lookup_self name mOk rOk st
  by_cases he : mb.messages.isEmpty <;> simp [get_messages, hmb, he]

/-- C9: for a never-before-seen agent name, calling get_messages,
clear_mailbox, or delete_message — including a delete_message that fails
with NotFound — durably creates an empty mailbox file for that name and
adds the name to the persisted registry: read-only and failing operations
mutate durable state. -/
theorem claim9_reads_create_state (name mid : String) (st : SysState)
    (hmem : dictLookup st.agent_mailboxes name = none)
    (hdisk : dictLookup st.mailboxFiles name = none)
    (hreg : name ∉ st.registered_agents) :
    (dictLookup (get_messages name true true st).1.mailboxFiles name
        = some (FileContent.valid freshMailbox) ∧
      name ∈ (get_messages name true true st).1.registered_agents ∧
      (get_messages name true true st).1.agentsFile
        = some (RegFileContent.valid (get_messages name true true st).1.registered_agents)) ∧
    (dictLookup (clear_mailbox name true true true st).1.mailboxFiles name
        = some (FileContent.valid freshMailbox) ∧
      name ∈ (clear_mailbox name true true true st).1.registered_agents) ∧
    ((delete_message name mid true true true st).2 = Except.error ApiErr.notFound ∧
      dictLookup (delete_message name mid true true true st).1.mailboxFiles name
        = some (FileContent.valid freshMailbox) ∧
      name ∈ (delete_message name mid true true true st).1.registered_agents) := by
  have hf := init_lookup_fresh_mem name true true st hmem (Or.inl hdisk)
  have hfile : dictLookup (initialize_agent_mailbox name true true st).mailboxFiles name
      = some (FileContent.valid freshMailbox) := by
    rw [init_mailboxFiles_eq]
    exact (load_step_fresh_or_corrupt name st hmem (Or.inl hdisk)).2
  have hnolook : (dictLookup freshMailbox.messages mid).isSome = false := by
    simp [freshMailbox, dictLookup]
  refine ⟨⟨?_, ?_, ?_⟩, ⟨?_, ?_⟩, ⟨?_, ?_, ?_⟩⟩
  · rw [get_messages_state]
    exact hfile
  · rw [get_messages_state]
    exact init_mem_registered name true true st
  · rw [get_messages_state]
    exact init_agentsFile_of_not_registered name true st hreg
  · simp only [clear_mailbox, hf]
    exact save_mailbox_disk_self _ _ _ (dictLookup_insert_self _ _ _)
  · simp only [clear_mailbox, hf]
    rw [save_mailbox_registered]
    exact init_mem_registered name true true st
  · simp only [delete_message, hf, hnolook, Bool.false_eq_true, if_false]
  · simp only [delete_message, hf, hnolook, Bool.false_eq_true, if_false]
    exact hfile
  · simp only [delete_message, hf, hnolook, Bool.false_eq_true, if_false]
    exact init_mem_registered name true true st

/-- Witness for C9 at a concrete input: listing, clearing, and a failing
delete for the never-seen agent "ghost" on the empty state all create a
mailbox file and register "ghost". -/
theorem claim9_reads_create_state_witness :
    dictLookup (get_messages "ghost" true true emptySysState).1.mailboxFiles "ghost"
      = some (FileContent.valid freshMailbox) ∧
    (delete_message "ghost" "msg9" true true true emptySysState).2
      = Except.error ApiErr.notFound ∧
    "ghost" ∈ (delete_message "ghost" "msg9" true true true emptySysState).1.registered_agents := by
  obtain ⟨⟨h1, _, _⟩, _, ⟨h2, _, h3⟩⟩ :=
    claim9_reads_create_state "ghost" "msg9" emptySysState (by decide) (by decide) (by decide)
  exact ⟨h1, h2, h3⟩

theorem init_of_registered (name : String) (mOk rOk : Bool) (st : SysState)
    (h : name ∈ st.registered_agents) :
    initialize_agent_mailbox name mOk rOk st = load_mailbox_step name mOk st := by
  unfold initialize_agent_mailbox register_step
  simp [load_step_registered, h]

/-- C5: register_agent fails with Conflict exactly when the name is in
the registry or a mailbox file for it exists on disk, leaving the state
unchanged in the Conflict case; on a fresh name it succeeds, registers
and persists the name, creates an empty mailbox file with counter 0 and
no messages, and a second registration of the same name then fails with
Conflict. -/
theorem claim5_register_agent (name : String) (rOk mOk rOk2 : Bool) (st : SysState) :
    ((add_agent name rOk mOk rOk2 st).2 = Except.error ApiErr.conflict ↔
      (name ∈ st.registered_agents ∨ (dictLookup st.mailboxFiles name).isSome)) ∧
    ((name ∈ st.registered_agents ∨ (dictLookup st.mailboxFiles name).isSome) →
      (add_agent name rOk mOk rOk2 st).1 = st) ∧
    (name ∉ st.registered_agents → dictLookup st.mailboxFiles name = none →
      dictLookup st.agent_mailboxes name = none →
      ((add_agent name true true true st).2 = Except.ok name ∧
        name ∈ (add_agent name true true true st).1.registered_agents ∧
        (∃ l, (add_agent name true true true st).1.agentsFile
            = some (RegFileContent.valid l) ∧ name ∈ l) ∧
        dictLookup (add_agent name true true true st).1.mailboxFiles name
          = some (FileContent.valid freshMailbox) ∧
        (add_agent name true true true (add_agent name true true true st).1).2
          = Except.error ApiErr.conflict)) := by
  by_cases hc : name ∈ st.registered_agents ∨ (dictLookup st.mailboxFiles name).isSome
  · refine ⟨?_, ?_, ?_⟩
    · simp [add_agent, hc]
    · intro _
      simp [add_agent, hc]
    · intro hr hd _
      exfalso
      rcases hc with hc | hc
      · exact hr hc
      · rw [hd] at hc
        simp at hc
  · refine ⟨?_, ?_, ?_⟩
    · constructor
      · intro h
        simp only [add_agent, hc, if_false] at h
        split at h <;> simp_all
      · intro h
        exact absurd h hc
    · intro h
      exact absurd h hc
    · intro hr hd hm
      have hst1mem : dictLookup (save_agent_names true
          { st with registered_agents := name :: st.registered_agents }).agent_mailboxes name
          = none := by simpa [save_agent_names] using hm
      have hst1disk : dictLookup (save_agent_names true
          { st with registered_agents := name :: st.registered_agents }).mailboxFiles name
          = none := by simpa [save_agent_names] using hd
      have hst1reg : name ∈ (save_agent_names true
          { st with registered_agents := name :: st.registered_agents }).registered_agents := by
        simp [save_agent_names]
      have hdisk2 : dictLookup (initialize_agent_mailbox name true true (save_agent_names true
          { st with registered_agents := name :: st.registered_agents })).mailboxFiles name
          = some (FileContent.valid freshMailbox) := by
        rw [init_mailboxFiles_eq]
        exact (load_step_fresh_or_corrupt name _ hst1mem (Or.inl hst1disk)).2
      have hreg2 : (initialize_agent_mailbox name true true (save_agent_names true
          { st with registered_agents := name :: st.registered_agents })).registered_agents
          = name :: st.registered_agents := by
        rw [init_of_registered name true true _ hst1reg, load_step_registered]
        simp [save_agent_names]
      have hfile2 : (initialize_agent_mailbox name true true (save_agent_names true
          { st with registered_agents := name :: st.registered_agents })).agentsFile
          = some (RegFileContent.valid (name :: st.registered_agents)) := by
        rw [init_of_registered name true true _ hst1reg, load_step_agentsFile]
        simp [save_agent_names]
      have hres : add_agent name true true true st
          = (initialize_agent_mailbox name true true (save_agent_names true
              { st with registered_agents := name :: st.registered_agents }),
             Except.ok name) := by
        simp [add_agent, hc, hdisk2]
      refine ⟨by rw [hres], ?_, ?_, ?_, ?_⟩
      · rw [hres]
        simp only
        rw [hreg2]
        simp
      · refine ⟨name :: st.registered_agents, ?_, by simp⟩
        rw [hres]
        simp only
        exact hfile2
      · rw [hres]
        simp only
        exact hdisk2
      · rw [hres]
        simp only
        simp [add_agent, hreg2]

/-- Witness for C5 at a concrete input: registering "X" on the empty
state succeeds and creates the empty mailbox file; registering "X" again
fails with Conflict. -/
theorem claim5_register_agent_witness :
    (add_agent "X" true true true emptySysState).2 = Except.ok "X" ∧
    dictLookup (add_agent "X" true true true emptySysState).1.mailboxFiles "X"
      = some (FileContent.valid freshMailbox) ∧
    (add_agent "X" true true true (add_agent "X" true true true emptySysState).1).2
      = Except.error ApiErr.conflict := by
  obtain ⟨h1, _, _, h2, h3⟩ := (claim5_register_agent "X" true true true emptySysState).2.2
    (by decide) (by decide) (by decide)
  exact ⟨h1, h2, h3⟩

/-- C2 counterexample: at startup, a mailbox file for "bob" is loaded
into the in-memory cache, yet "bob" is neither added to the in-memory
registry nor persisted to the registry file, refuting the claim that a
startup load registers the owner before returning. -/
theorem claim2_startup_counterexample :
    (dictLookup (startup (some (RegFileContent.valid []))
        [("bob", FileContent.valid freshMailbox)]).agent_mailboxes "bob").isSome ∧
    "bob" ∉ (startup (some (RegFileContent.valid []))
        [("bob", FileContent.valid freshMailbox)]).registered_agents ∧
    (startup (some (RegFileContent.valid []))
        [("bob", FileContent.valid freshMailbox)]).agentsFile
      = some (RegFileContent.valid []) := by
  decide

/-- C2 (amended): whenever a mailbox is loaded or created lazily on
first touch or via explicit registration, the owner's name is added to
the agent registry if absent and that addition is persisted before the
operation returns; the bulk startup load, however, does not register the
owners of the files it loads.  After any successful mutating operation
(writes succeeding) the registry contains the mutated agent's name and a
mailbox file for that agent exists on disk. -/
theorem claim2_lazy_load_registers (name mid : String) (req : SendRequest) (ts : String)
    (st : SysState) :
    (name ∉ st.registered_agents →
      (∀ mOk : Bool, name ∈ (initialize_agent_mailbox name mOk true st).registered_agents ∧
        (initialize_agent_mailbox name mOk true st).agentsFile
          = some (RegFileContent.valid
              (initialize_agent_mailbox name mOk true st).registered_agents))) ∧
    (req.recipient ∈ (send_message req ts true true true st).1.registered_agents ∧
      (dictLookup (send_message req ts true true true st).1.mailboxFiles req.recipient).isSome) ∧
    (∀ res : String, (delete_message name mid true true true st).2 = Except.ok res →
      name ∈ (delete_message name mid true true true st).1.registered_agents ∧
      (dictLookup (delete_message name mid true true true st).1.mailboxFiles name).isSome) ∧
    (∀ res : String, (clear_mailbox name true true true st).2 = Except.ok res →
      name ∈ (clear_mailbox name true true true st).1.registered_agents ∧
      (dictLookup (clear_mailbox name true true true st).1.mailboxFiles name).isSome) ∧
    (∀ res : String, (add_agent name true true true st).2 = Except.ok res →
      name ∈ (add_agent name true true true st).1.registered_agents ∧
      (dictLookup (add_agent name true true true st).1.mailboxFiles name).isSome) := by
  refine ⟨?_, ?_, ?_, ?_, ?_⟩
  · intro hreg mOk
    exact ⟨init_mem_registered name mOk true st,
      init_agentsFile_of_not_registered name mOk st hreg⟩
  · obtain ⟨mb, hmb⟩ := init_lookup_self req.recipient true true st
    obtain ⟨_, _, hregd, hdiskd⟩ := send_message_result req ts true true true st mb hmb
    refine ⟨hregd, ?_⟩
    rw [hdiskd]
    simp
  · intro res h
    obtain ⟨mb, hinit⟩ := init_lookup_self name true true st
    by_cases hmid : (dictLookup mb.messages mid).isSome
    · constructor
      · simp only [delete_message, hinit, hmid, if_true]
        rw [save_mailbox_registered]
        exact init_mem_registered name true true st
      · simp only [delete_message, hinit, hmid, if_true]
        rw [save_mailbox_disk_self _ _ _ (dictLookup_insert_self _ _ _)]
        simp
    · exfalso
      simp [delete_message, hinit, hmid] at h
  · intro res h
    obtain ⟨mb, hinit⟩ := init_lookup_self name true true st
    constructor
    · simp only [clear_mailbox, hinit]
      rw [save_mailbox_registered]
      exact init_mem_registered name true true st
    · simp only [clear_mailbox, hinit]
      rw [save_mailbox_disk_self _ _ _ (dictLookup_insert_self _ _ _)]
      simp
  · intro res h
    by_cases hc : name ∈ st.registered_agents ∨ (dictLookup st.mailboxFiles name).isSome
    · exfalso
      simp [add_agent, hc] at h
    · by_cases hp : (dictLookup (initialize_agent_mailbox name true true (save_agent_names true
          { st with registered_agents := name :: st.registered_agents })).mailboxFiles
          name).isSome
      · have hres : (add_agent name true true true st).1
            = initialize_agent_mailbox name true true (save_agent_names true
                { st with registered_agents := name :: st.registered_agents }) := by
          simp [add_agent, hc, hp]
        rw [hres]
        exact ⟨init_mem_registered name true true _, hp⟩
      · exfalso
        simp [add_agent, hc, hp] at h

/-- Witness for the amended C2 at concrete inputs: lazily initializing
the never-seen "bob" on the empty state registers it and persists the
registry, and a send to "carol" leaves "carol" registered with a mailbox
file on disk. -/
theorem claim2_lazy_load_registers_witness :
    "bob" ∈ (initialize_agent_mailbox "bob" true true emptySysState).registered_agents ∧
    (initialize_agent_mailbox "bob" true true emptySysState).agentsFile
      = some (RegFileContent.valid
          (initialize_agent_mailbox "bob" true true emptySysState).registered_agents) ∧
    "carol" ∈ (send_message { message := "m", sender := "s", recipient := "carol" } "t"
        true true true emptySysState).1.registered_agents := by
  obtain ⟨h1, h2, _, _, _⟩ := claim2_lazy_load_registers "bob" "msg1"
    { message := "m", sender := "s", recipient := "carol" } "t" emptySysState
  obtain ⟨ha, hb⟩ := h1 (by decide) true
  exact ⟨ha, hb, h2.1⟩

/-- C6 (code-bug evidence): neither `_save_mailbox` nor
`_save_agent_names` performs any rename: each one opens the final target
path directly in write mode — truncating it in place — and dumps JSON
into it, so no write-to-temp-then-atomic-rename discipline is used for
any durable save. -/
theorem claim6_saves_overwrite_in_place (name : String) :
    (∀ src dst, FsOp.renameFile src dst ∉ save_mailbox_fsOps name) ∧
    (save_mailbox_fsOps name).head? = some (FsOp.openTruncate (mailboxFilePath name)) ∧
    (∀ src dst, FsOp.renameFile src dst ∉ save_agent_names_fsOps) ∧
    save_agent_names_fsOps.head? = some (FsOp.openTruncate agentsFilePath) := by
  refine ⟨?_, rfl, ?_, rfl⟩ <;> intro src dst <;>
    simp [save_mailbox_fsOps, save_agent_names_fsOps]

/-- C7 (code-bug evidence): the counter update in `send_message` is an
unsynchronized read-then-write.  Interleaving two concurrent sends to the
same fresh recipient as read-read-write-write makes both compute the same
message ID msg1 and leaves the counter at 1 (a lost update), whereas the
serialized schedule yields the distinct IDs msg1 and msg2: without a
per-agent lock, uniqueness of IDs fails under concurrency. -/
theorem claim7_counter_race :
    (runRace initRaceState
        [RaceStep.readA, RaceStep.readB, RaceStep.writeA, RaceStep.writeB]).idA
      = some "msg1" ∧
    (runRace initRaceState
        [RaceStep.readA, RaceStep.readB, RaceStep.writeA, RaceStep.writeB]).idB
      = some "msg1" ∧
    (runRace initRaceState
        [RaceStep.readA, RaceStep.readB, RaceStep.writeA, RaceStep.writeB]).max_key = 1 ∧
    (runRace initRaceState
        [RaceStep.readA, RaceStep.writeA, RaceStep.readB, RaceStep.writeB]).idA
      = some "msg1" ∧
    (runRace initRaceState
        [RaceStep.readA, RaceStep.writeA, RaceStep.readB, RaceStep.writeB]).idB
      = some "msg2" := by
  decide
